import Mathlib

/-!
Formal model of the procedural spherical-terrain generator
(src/terrain.rs, src/main.rs, src/input.rs).

Conventions of the shallow embedding: Rust `f32` arithmetic is idealized
as real-number arithmetic, `u32` arithmetic is `Nat` reduced modulo
`2 ^ 32`, `i32` lattice coordinates are integers, and `glam::Vec3` is a
record of three reals.  Fallible operations do not occur in the modelled
code; `normalize_or_zero` is total by construction.
-/

namespace TerrainModel

/-! ### Constants (src/terrain.rs lines 6-20) -/

def GRID : ℕ := 256

noncomputable def WORLD_RADIUS : ℝ := 100

noncomputable def HEIGHT_AMPLITUDE : ℝ := 10

def LON_POINTS : ℕ := GRID + 1

def LAT_POINTS : ℕ := GRID

noncomputable def CONTINENT_FREQ : ℝ := 1

noncomputable def HILL_FREQ : ℝ := 8.2

noncomputable def MOUNTAIN_FREQ : ℝ := 10.2

noncomputable def DETAIL_FREQ : ℝ := 19

noncomputable def WARP_FREQ : ℝ := 0.75

noncomputable def MOISTURE_FREQ : ℝ := 0.8

noncomputable def SEA_THRESHOLD : ℝ := 0.3

/-! ### u32 arithmetic -/

/-- The number of `u32` values, `2 ^ 32`. -/
def U32 : ℕ := 2 ^ 32

/-- `x as u32` for a Rust `i32` value: two's-complement wrap into `[0, 2^32)`. -/
def toU32 (x : ℤ) : ℕ := (x % (U32 : ℤ)).toNat

/-- `u32::wrapping_mul`. -/
def mulU32 (a b : ℕ) : ℕ := a * b % U32

/-- `u32` bitwise XOR; operands are reduced into `u32` range first, so the
model accepts arbitrary naturals for seeds. -/
def xorU32 (a b : ℕ) : ℕ := Nat.xor (a % U32) (b % U32)

/-! ### glam `Vec3` -/

/-- `glam::Vec3` idealized over the reals. -/
structure V3 where
  x : ℝ
  y : ℝ
  z : ℝ

namespace V3

noncomputable instance : Add V3 := ⟨fun a b => ⟨a.x + b.x, a.y + b.y, a.z + b.z⟩⟩

noncomputable instance : Sub V3 := ⟨fun a b => ⟨a.x - b.x, a.y - b.y, a.z - b.z⟩⟩

noncomputable instance : Neg V3 := ⟨fun a => ⟨-a.x, -a.y, -a.z⟩⟩

noncomputable instance : SMul ℝ V3 := ⟨fun c v => ⟨c * v.x, c * v.y, c * v.z⟩⟩

noncomputable instance : Zero V3 := ⟨⟨0, 0, 0⟩⟩

/-- `Vec3::splat`. -/
noncomputable def splat (c : ℝ) : V3 := ⟨c, c, c⟩

/-- `Vec3::length_squared`. -/
noncomputable def lengthSq (v : V3) : ℝ := v.x * v.x + v.y * v.y + v.z * v.z

/-- `Vec3::length`. -/
noncomputable def length (v : V3) : ℝ := Real.sqrt v.lengthSq

/-- `Vec3::normalize_or_zero`: the unit vector along `v`, or zero when the
length degenerates to zero. -/
noncomputable def normalizeOrZero (v : V3) : V3 :=
  if v.length = 0 then ⟨0, 0, 0⟩ else (1 / v.length) • v

/-- `Vec3::cross`. -/
noncomputable def cross (a b : V3) : V3 :=
  ⟨a.y * b.z - a.z * b.y, a.z * b.x - a.x * b.z, a.x * b.y - a.y * b.x⟩

theorem add_def (a b : V3) : a + b = ⟨a.x + b.x, a.y + b.y, a.z + b.z⟩ := rfl

theorem smul_def (c : ℝ) (v : V3) : c • v = ⟨c * v.x, c * v.y, c * v.z⟩ := rfl

end V3

/-! ### Scalar helpers (src/terrain.rs lines 370-377, 457-459) -/

/-- Rust `f32::clamp` for ordered bounds: `max lo (min x hi)`. -/
noncomputable def clampR (x lo hi : ℝ) : ℝ := max lo (min x hi)

/-- src/terrain.rs `lerp`. -/
noncomputable def lerp (a b t : ℝ) : ℝ := a + (b - a) * t

/-- src/terrain.rs `smoothstep`. -/
noncomputable def smoothstep (edge0 edge1 x : ℝ) : ℝ :=
  let t := clampR ((x - edge0) / (edge1 - edge0)) 0 1
  t * t * (3 - 2 * t)

/-- src/terrain.rs `remap01`. -/
noncomputable def remap01 (v : ℝ) : ℝ := clampR (v * 0.5 + 0.5) 0 1

/-! ### Noise stack (src/terrain.rs lines 379-455) -/

/-- First line of src/terrain.rs `hash3`: the three lattice coordinates,
each wrapping-multiplied by a large odd constant, XORed together with the
seed. -/
def hashMix1 (x y z : ℤ) (seed : ℕ) : ℕ :=
  xorU32 (xorU32 (xorU32 (mulU32 (toU32 x) 73856093)
    (mulU32 (toU32 y) 19349663)) (mulU32 (toU32 z) 83492791)) seed

/-- Second line of `hash3`: `n = (n ^ (n >> 13)).wrapping_mul(1274126177)`. -/
def hashMix2 (x y z : ℤ) (seed : ℕ) : ℕ :=
  mulU32 (Nat.xor (hashMix1 x y z seed) (hashMix1 x y z seed / 2 ^ 13)) 1274126177

/-- Third line of `hash3`: `n ^= n >> 16`. -/
def hashWord (x y z : ℤ) (seed : ℕ) : ℕ :=
  Nat.xor (hashMix2 x y z seed) (hashMix2 x y z seed / 2 ^ 16)

/-- src/terrain.rs `hash3`: integer-lattice hash mixed with the seed,
avalanched, and mapped into `[-1, 1]` by dividing by `u32::MAX`. -/
noncomputable def hash3 (x y z : ℤ) (seed : ℕ) : ℝ :=
  (hashWord x y z seed : ℝ) / ((U32 : ℝ) - 1) * 2 - 1

/-- src/terrain.rs `sample_noise_3d`: trilinear interpolation of `hash3` at
the eight lattice corners surrounding the sample point. -/
noncomputable def sampleNoise3d (x y z : ℝ) (seed : ℕ) : ℝ :=
  let x0 : ℤ := Int.floor x
  let y0 : ℤ := Int.floor y
  let z0 : ℤ := Int.floor z
  let x1 := x0 + 1
  let y1 := y0 + 1
  let z1 := z0 + 1
  let tx := x - (x0 : ℝ)
  let ty := y - (y0 : ℝ)
  let tz := z - (z0 : ℝ)
  let c000 := hash3 x0 y0 z0 seed
  let c100 := hash3 x1 y0 z0 seed
  let c010 := hash3 x0 y1 z0 seed
  let c110 := hash3 x1 y1 z0 seed
  let c001 := hash3 x0 y0 z1 seed
  let c101 := hash3 x1 y0 z1 seed
  let c011 := hash3 x0 y1 z1 seed
  let c111 := hash3 x1 y1 z1 seed
  let x00 := lerp c000 c100 tx
  let x10 := lerp c010 c110 tx
  let x01 := lerp c001 c101 tx
  let x11 := lerp c011 c111 tx
  let ya := lerp x00 x10 ty
  let yb := lerp x01 x11 ty
  lerp ya yb tz

/-- The loop of src/terrain.rs `fbm`: `n` remaining octaves, accumulator
state `(amp, freq, sum, norm)`; returns the final `(sum, norm)`. -/
noncomputable def fbmAux (px py pz : ℝ) (seed : ℕ) (lac gain : ℝ) :
    ℕ → ℝ → ℝ → ℝ → ℝ → ℝ × ℝ
  | 0, _amp, _freq, sum, norm => (sum, norm)
  | n + 1, amp, freq, sum, norm =>
      fbmAux px py pz seed lac gain n (amp * gain) (freq * lac)
        (sum + sampleNoise3d (px * freq) (py * freq) (pz * freq) seed * amp)
        (norm + amp)

/-- src/terrain.rs `fbm`: octave sum of value noise divided by the sum of
the octave amplitudes. -/
noncomputable def fbm (pos : V3) (seed : ℕ) (octaves : ℕ) (lac gain : ℝ) : ℝ :=
  let sn := fbmAux pos.x pos.y pos.z seed lac gain octaves 1 1 0 0
  sn.1 / sn.2

/-- The loop of src/terrain.rs `ridged_fbm`: per octave the noise is folded
through `(1 - |n|)^2` before accumulation. -/
noncomputable def ridgedFbmAux (px py pz : ℝ) (seed : ℕ) (lac gain : ℝ) :
    ℕ → ℝ → ℝ → ℝ → ℝ → ℝ × ℝ
  | 0, _amp, _freq, sum, norm => (sum, norm)
  | n + 1, amp, freq, sum, norm =>
      let s := sampleNoise3d (px * freq) (py * freq) (pz * freq) seed
      let ridge := (1 - |s|) * (1 - |s|)
      ridgedFbmAux px py pz seed lac gain n (amp * gain) (freq * lac)
        (sum + ridge * amp) (norm + amp)

/-- src/terrain.rs `ridged_fbm`, starting amplitude `0.5`, result clamped
into `[0, 1]`. -/
noncomputable def ridgedFbm (pos : V3) (seed : ℕ) (octaves : ℕ) (lac gain : ℝ) : ℝ :=
  let sn := ridgedFbmAux pos.x pos.y pos.z seed lac gain octaves 0.5 1 0 0
  clampR (sn.1 / sn.2) 0 1

/-! ### Bounds for the noise stack -/

theorem mulU32_lt (a b : ℕ) : mulU32 a b < U32 :=
  Nat.mod_lt _ (by norm_num [U32])

theorem xorU32_lt (a b : ℕ) : xorU32 a b < U32 := by
  have ha : a % U32 < 2 ^ 32 := Nat.mod_lt _ (by norm_num [U32])
  have hb : b % U32 < 2 ^ 32 := Nat.mod_lt _ (by norm_num [U32])
  simpa [xorU32, U32] using Nat.xor_lt_two_pow ha hb

theorem hashWord_lt (x y z : ℤ) (seed : ℕ) : hashWord x y z seed < U32 := by
  have h1 : hashMix2 x y z seed < 2 ^ 32 := by
    simpa [U32] using mulU32_lt (Nat.xor (hashMix1 x y z seed)
      (hashMix1 x y z seed / 2 ^ 13)) 1274126177
  have hd : hashMix2 x y z seed / 2 ^ 16 < 2 ^ 32 :=
    lt_of_le_of_lt (Nat.div_le_self _ _) h1
  simpa [hashWord, U32] using Nat.xor_lt_two_pow h1 hd

/-- `hash3` lands in `[-1, 1]`: the mixed word is a genuine `u32`, so the
final affine map sends it into the signed unit interval. -/
theorem hash3_mem (x y z : ℤ) (seed : ℕ) :
    -1 ≤ hash3 x y z seed ∧ hash3 x y z seed ≤ 1 := by
  have h2 : hashWord x y z seed < U32 := hashWord_lt x y z seed
  have hup : (hashWord x y z seed : ℝ) ≤ (U32 : ℝ) - 1 := by
    rw [show ((U32 : ℝ) - 1) = ((U32 - 1 : ℕ) : ℝ) by norm_num [U32]]
    exact_mod_cast Nat.le_sub_one_of_lt h2
  have hden : (0 : ℝ) < (U32 : ℝ) - 1 := by norm_num [U32]
  have hq0 : 0 ≤ (hashWord x y z seed : ℝ) / ((U32 : ℝ) - 1) := by positivity
  have hq1 : (hashWord x y z seed : ℝ) / ((U32 : ℝ) - 1) ≤ 1 :=
    (div_le_one hden).mpr hup
  unfold hash3
  constructor <;> nlinarith

/-- Linear interpolation with weight in `[0, 1]` stays inside `[-1, 1]`. -/
theorem lerp_mem {a b t : ℝ} (ha : -1 ≤ a ∧ a ≤ 1) (hb : -1 ≤ b ∧ b ≤ 1)
    (ht : 0 ≤ t ∧ t ≤ 1) : -1 ≤ lerp a b t ∧ lerp a b t ≤ 1 := by
  obtain ⟨ha1, ha2⟩ := ha
  obtain ⟨hb1, hb2⟩ := hb
  obtain ⟨ht1, ht2⟩ := ht
  unfold lerp
  constructor <;> nlinarith

/-- Trilinear value noise stays inside `[-1, 1]`. -/
theorem sampleNoise3d_mem (x y z : ℝ) (seed : ℕ) :
    -1 ≤ sampleNoise3d x y z seed ∧ sampleNoise3d x y z seed ≤ 1 := by
  unfold sampleNoise3d
  have hx : 0 ≤ x - ((Int.floor x : ℤ) : ℝ) ∧ x - ((Int.floor x : ℤ) : ℝ) ≤ 1 :=
    ⟨by linarith [Int.floor_le x], by linarith [Int.lt_floor_add_one x]⟩
  have hy : 0 ≤ y - ((Int.floor y : ℤ) : ℝ) ∧ y - ((Int.floor y : ℤ) : ℝ) ≤ 1 :=
    ⟨by linarith [Int.floor_le y], by linarith [Int.lt_floor_add_one y]⟩
  have hz : 0 ≤ z - ((Int.floor z : ℤ) : ℝ) ∧ z - ((Int.floor z : ℤ) : ℝ) ≤ 1 :=
    ⟨by linarith [Int.floor_le z], by linarith [Int.lt_floor_add_one z]⟩
  exact lerp_mem
    (lerp_mem (lerp_mem (hash3_mem _ _ _ _) (hash3_mem _ _ _ _) hx)
      (lerp_mem (hash3_mem _ _ _ _) (hash3_mem _ _ _ _) hx) hy)
    (lerp_mem (lerp_mem (hash3_mem _ _ _ _) (hash3_mem _ _ _ _) hx)
      (lerp_mem (hash3_mem _ _ _ _) (hash3_mem _ _ _ _) hx) hy)
    hz

/-- Invariant of the `fbm` loop: a nonnegative amplitude and an accumulator
with `|sum| ≤ norm` keep `|sum| ≤ norm` to the end. -/
theorem fbmAux_abs_le (px py pz : ℝ) (seed : ℕ) (lac : ℝ) {gain : ℝ}
    (hg : 0 ≤ gain) :
    ∀ (n : ℕ) (amp freq sum norm : ℝ), 0 ≤ amp → |sum| ≤ norm →
      |(fbmAux px py pz seed lac gain n amp freq sum norm).1| ≤
        (fbmAux px py pz seed lac gain n amp freq sum norm).2 := by
  intro n
  induction n with
  | zero => intro amp freq sum norm _ h; simpa [fbmAux] using h
  | succ n ih =>
      intro amp freq sum norm hamp h
      have hs := sampleNoise3d_mem (px * freq) (py * freq) (pz * freq) seed
      have habs : |sampleNoise3d (px * freq) (py * freq) (pz * freq) seed| ≤ 1 :=
        abs_le.mpr ⟨hs.1, hs.2⟩
      have hterm : |sampleNoise3d (px * freq) (py * freq) (pz * freq) seed * amp| ≤ amp := by
        rw [abs_mul, abs_of_nonneg hamp]
        nlinarith
      have hnext : |sum + sampleNoise3d (px * freq) (py * freq) (pz * freq) seed * amp| ≤
          norm + amp :=
        le_trans (abs_add _ _) (by linarith)
      simpa [fbmAux] using ih (amp * gain) (freq * lac) _ _ (by positivity) hnext

/-- The `fbm` loop only grows the amplitude sum when amplitudes stay
nonnegative. -/
theorem fbmAux_norm_ge (px py pz : ℝ) (seed : ℕ) (lac : ℝ) {gain : ℝ}
    (hg : 0 ≤ gain) :
    ∀ (n : ℕ) (amp freq sum norm : ℝ), 0 ≤ amp →
      norm ≤ (fbmAux px py pz seed lac gain n amp freq sum norm).2 := by
  intro n
  induction n with
  | zero => intro amp freq sum norm _; simp [fbmAux]
  | succ n ih =>
      intro amp freq sum norm hamp
      have := ih (amp * gain) (freq * lac)
        (sum + sampleNoise3d (px * freq) (py * freq) (pz * freq) seed * amp)
        (norm + amp) (by positivity)
      calc norm ≤ norm + amp := by linarith
        _ ≤ _ := by simpa [fbmAux] using this

theorem clampR_mem {lo hi : ℝ} (h : lo ≤ hi) (x : ℝ) :
    lo ≤ clampR x lo hi ∧ clampR x lo hi ≤ hi :=
  ⟨le_max_left _ _, max_le h (min_le_right _ _)⟩

theorem smoothstep_mem (e0 e1 x : ℝ) :
    0 ≤ smoothstep e0 e1 x ∧ smoothstep e0 e1 x ≤ 1 := by
  obtain ⟨h0, h1⟩ := clampR_mem (show (0 : ℝ) ≤ 1 by norm_num) ((x - e0) / (e1 - e0))
  simp only [smoothstep]
  set t := clampR ((x - e0) / (e1 - e0)) 0 1 with ht
  have key : 0 ≤ (1 - t) * (1 - t) * (1 + 2 * t) :=
    mul_nonneg (mul_nonneg (by linarith) (by linarith)) (by linarith)
  constructor <;> nlinarith

theorem remap01_mem (v : ℝ) : 0 ≤ remap01 v ∧ remap01 v ≤ 1 :=
  clampR_mem (by norm_num) _

theorem ridgedFbm_mem (pos : V3) (seed octaves : ℕ) (lac gain : ℝ) :
    0 ≤ ridgedFbm pos seed octaves lac gain ∧ ridgedFbm pos seed octaves lac gain ≤ 1 := by
  simp only [ridgedFbm]
  exact clampR_mem (by norm_num) _

/-- One unrolling: after its first octave the `fbm` loop's amplitude sum
is at least `norm + amp`. -/
theorem fbmAux_norm_succ (px py pz : ℝ) (seed : ℕ) (lac : ℝ) {gain : ℝ}
    (hg : 0 ≤ gain) (n : ℕ) (amp freq sum norm : ℝ) (hamp : 0 ≤ amp) :
    norm + amp ≤ (fbmAux px py pz seed lac gain (n + 1) amp freq sum norm).2 := by
  simpa [fbmAux] using fbmAux_norm_ge px py pz seed lac hg n (amp * gain) (freq * lac)
    (sum + sampleNoise3d (px * freq) (py * freq) (pz * freq) seed * amp)
    (norm + amp) (by positivity)

/-- `fbm` stays inside `[-1, 1]` for at least one octave and positive gain:
each octave contributes at most its amplitude in magnitude, and the sum is
divided by the total amplitude. -/
theorem fbm_mem (pos : V3) (seed octaves : ℕ) (lac gain : ℝ)
    (hoct : 1 ≤ octaves) (hg : 0 < gain) :
    -1 ≤ fbm pos seed octaves lac gain ∧ fbm pos seed octaves lac gain ≤ 1 := by
  obtain ⟨n, rfl⟩ : ∃ n, octaves = n + 1 :=
    ⟨octaves - 1, (Nat.succ_pred_eq_of_pos hoct).symm⟩
  have habs : |(fbmAux pos.x pos.y pos.z seed lac gain (n + 1) 1 1 0 0).1| ≤
      (fbmAux pos.x pos.y pos.z seed lac gain (n + 1) 1 1 0 0).2 :=
    fbmAux_abs_le pos.x pos.y pos.z seed lac hg.le (n + 1) 1 1 0 0 (by norm_num)
      (by norm_num)
  have hnorm : (1 : ℝ) ≤ (fbmAux pos.x pos.y pos.z seed lac gain (n + 1) 1 1 0 0).2 := by
    simpa using fbmAux_norm_succ pos.x pos.y pos.z seed lac hg.le n 1 1 0 0 (by norm_num)
  have hpos : (0 : ℝ) < (fbmAux pos.x pos.y pos.z seed lac gain (n + 1) 1 1 0 0).2 := by
    linarith
  have : |fbm pos seed (n + 1) lac gain| ≤ 1 := by
    simp only [fbm, abs_div, abs_of_pos hpos]
    exact (div_le_one hpos).mpr habs
  exact abs_le.mp this

/-! ### Height synthesis (src/terrain.rs lines 294-332, 411-416)

`height_for_dir` is embedded with each `let`-bound intermediate of the Rust
function as a named definition; `heightForDir` assembles them exactly as the
source does. -/

/-- The six per-channel seeds drawn in `generate_mesh`. -/
structure Seeds where
  continent : ℕ
  hill : ℕ
  mountain : ℕ
  detail : ℕ
  moisture : ℕ
  warp : ℕ

/-- src/terrain.rs `warp_dir`: three decorrelated low-frequency fbm samples
assembled into a vector and scaled by `0.35`. -/
noncomputable def warpDir (dir : V3) (seed : ℕ) : V3 :=
  (0.35 : ℝ) • (⟨fbm (WARP_FREQ • dir) seed 3 2 0.5,
    fbm (WARP_FREQ • dir + V3.splat 12.7) (xorU32 seed 0x27d4) 3 2 0.5,
    fbm (WARP_FREQ • dir + V3.splat 31.4) (xorU32 seed 0x1656) 3 2 0.5⟩ : V3)

/-- `height_for_dir` line 303: the domain-warped, renormalized direction. -/
noncomputable def warpedOf (dir : V3) (s : Seeds) : V3 :=
  V3.normalizeOrZero (dir + warpDir dir s.warp)

/-- `height_for_dir` lines 304-305: weighted sum of two continent-scale fbm
channels. -/
noncomputable def continentOf (dir : V3) (s : Seeds) : ℝ :=
  fbm (CONTINENT_FREQ • warpedOf dir s) s.continent 5 2.05 0.5 * 0.85
    + fbm ((CONTINENT_FREQ * 0.5) • warpedOf dir s) (xorU32 s.continent 0x9e37) 3 2.2 0.5
      * 0.15

/-- `height_for_dir` line 306: signed distance of the continent value from
the sea threshold. -/
noncomputable def baseOf (dir : V3) (s : Seeds) : ℝ := continentOf dir s - SEA_THRESHOLD

/-- `height_for_dir` line 307. -/
noncomputable def landMaskOf (dir : V3) (s : Seeds) : ℝ :=
  smoothstep 0 0.2 (baseOf dir s)

/-- `height_for_dir` line 308. -/
noncomputable def hillsOf (dir : V3) (s : Seeds) : ℝ :=
  remap01 (fbm (HILL_FREQ • warpedOf dir s) s.hill 4 2.1 0.5)

/-- `height_for_dir` line 309. -/
noncomputable def ridgesOf (dir : V3) (s : Seeds) : ℝ :=
  ridgedFbm (MOUNTAIN_FREQ • warpedOf dir s) s.mountain 4 2 0.5

/-- `height_for_dir` line 310. -/
noncomputable def detailOf (dir : V3) (s : Seeds) : ℝ :=
  fbm (DETAIL_FREQ • warpedOf dir s) s.detail 3 2.4 0.55

/-- `height_for_dir` lines 311-314. -/
noncomputable def moistureOf (dir : V3) (s : Seeds) : ℝ :=
  remap01 (fbm (MOISTURE_FREQ • warpedOf dir s) s.moisture 4 2 0.5 * 0.8
    + fbm ((0.25 : ℝ) • warpedOf dir s) (xorU32 s.moisture 0x85eb) 2 2 0.5 * 0.2)

/-- `height_for_dir` line 318. -/
noncomputable def inlandOf (dir : V3) (s : Seeds) : ℝ :=
  smoothstep 0.08 0.45 (baseOf dir s)

/-- `height_for_dir` lines 316-321, the land branch: base elevation plus
hill, squared-ridge and detail contributions. -/
noncomputable def landHeightOf (dir : V3) (s : Seeds) : ℝ :=
  baseOf dir s * HEIGHT_AMPLITUDE
    + (hillsOf dir s - 0.5) * HEIGHT_AMPLITUDE * 0.35 * landMaskOf dir s
    + ridgesOf dir s ^ (2 : ℝ) * HEIGHT_AMPLITUDE * 0.9 * inlandOf dir s
    + detailOf dir s * HEIGHT_AMPLITUDE * 0.07

/-- `height_for_dir` line 323. -/
noncomputable def oceanDepthOf (dir : V3) (s : Seeds) : ℝ := max (-baseOf dir s) 0

/-- `height_for_dir` line 324. -/
noncomputable def shelfOf (dir : V3) (s : Seeds) : ℝ :=
  smoothstep 0.03 0.2 (oceanDepthOf dir s)

/-- `height_for_dir` lines 322-328, the ocean branch: powered depth, shelf
lift and detail noise, clamped below `-0.15`. -/
noncomputable def oceanHeightOf (dir : V3) (s : Seeds) : ℝ :=
  min (-oceanDepthOf dir s ^ (1.35 : ℝ) * HEIGHT_AMPLITUDE * 0.85
    + (1 - shelfOf dir s) * HEIGHT_AMPLITUDE * 0.08
    + detailOf dir s * HEIGHT_AMPLITUDE * 0.04) (-0.15)

/-- src/terrain.rs `height_for_dir`: the branch on the sign of
`base * HEIGHT_AMPLITUDE` selects the land or the ocean elevation; moisture
is computed either way. -/
noncomputable def heightForDir (dir : V3) (s : Seeds) : ℝ × ℝ :=
  (if baseOf dir s * HEIGHT_AMPLITUDE > 0 then landHeightOf dir s
    else oceanHeightOf dir s, moistureOf dir s)

/-! ### Biome color (src/terrain.rs lines 334-368) -/

/-- src/terrain.rs `color_from_height`: the Rust early-return cascade as
nested conditionals, first match wins. -/
noncomputable def colorFromHeight (height : ℝ) (dir : V3) (moisture : ℝ) : ℝ × ℝ × ℝ :=
  if height / HEIGHT_AMPLITUDE < -0.45 then (0.02, 0.05, 0.12)
  else if height / HEIGHT_AMPLITUDE < -0.2 then (0.03, 0.1, 0.22)
  else if height / HEIGHT_AMPLITUDE < -0.02 then (0.06, 0.22, 0.35)
  else if height / HEIGHT_AMPLITUDE < 0.04 then (0.78, 0.72, 0.54)
  else if height / HEIGHT_AMPLITUDE > 0.85 ∨
      clampR (1 - |dir.y| - height / HEIGHT_AMPLITUDE * 0.45) 0 1 < 0.15 then
    (0.9, 0.92, 0.96)
  else if height / HEIGHT_AMPLITUDE > 0.65 then (0.48, 0.46, 0.44)
  else if clampR (1 - |dir.y| - height / HEIGHT_AMPLITUDE * 0.45) 0 1 < 0.3 then
    (0.62, 0.66, 0.6)
  else if moisture < 0.22 then (0.8, 0.72, 0.45)
  else if moisture < 0.5 then (0.22, 0.56, 0.28)
  else (0.08, 0.43, 0.22)

/-! ### Mesh grid (src/terrain.rs `generate_mesh`, lines 203-292)

The Rust function fills row-major arrays indexed by `idx = z * LON_POINTS + x`;
the embedding gives each per-vertex quantity as a function of `(z, x)` and
assembles the same row-major vertex list from them. -/

/-- The duplicated seam column index, `LON_POINTS - 1`. -/
def lonLast : ℕ := LON_POINTS - 1

/-- Normalized latitude coordinate `v = z / (LAT_POINTS - 1)`. -/
noncomputable def vOf (z : ℕ) : ℝ := (z : ℝ) / ((LAT_POINTS - 1 : ℕ) : ℝ)

/-- Normalized longitude coordinate `u = x / (LON_POINTS - 1)`. -/
noncomputable def uOf (x : ℕ) : ℝ := (x : ℝ) / ((LON_POINTS - 1 : ℕ) : ℝ)

/-- Latitude angle `v * PI`. -/
noncomputable def latOf (z : ℕ) : ℝ := vOf z * Real.pi

/-- Longitude angle `u * TAU`. -/
noncomputable def lonOf (x : ℕ) : ℝ := uOf x * (2 * Real.pi)

/-- Grid direction `(cos lon * sin lat, cos lat, sin lon * sin lat)`
(line 223). -/
noncomputable def dirGrid (z x : ℕ) : V3 :=
  ⟨Real.cos (lonOf x) * Real.sin (latOf z), Real.cos (latOf z),
    Real.sin (lonOf x) * Real.sin (latOf z)⟩

/-- Per-vertex elevation (line 224-234). -/
noncomputable def heightGrid (s : Seeds) (z x : ℕ) : ℝ :=
  (heightForDir (dirGrid z x) s).1

/-- Per-vertex moisture. -/
noncomputable def moistGrid (s : Seeds) (z x : ℕ) : ℝ :=
  (heightForDir (dirGrid z x) s).2

/-- Per-vertex sphere-space position `dir * (WORLD_RADIUS + height)`
(line 236). -/
noncomputable def posGrid (s : Seeds) (z x : ℕ) : V3 :=
  (WORLD_RADIUS + heightGrid s z x) • dirGrid z x

/-- Per-vertex flat-map position `(u, v, height)` (line 237). -/
noncomputable def flatGrid (s : Seeds) (z x : ℕ) : V3 :=
  ⟨uOf x, vOf z, heightGrid s z x⟩

/-- The normalized central-difference cross product of an interior vertex
(lines 251-259): longitude neighbors wrap through the duplicated seam
column, latitude neighbors are the adjacent rows. -/
noncomputable def rawNormal (s : Seeds) (z x : ℕ) : V3 :=
  V3.normalizeOrZero (V3.cross
    (posGrid s z (if x = lonLast then 1 else x + 1) -
      posGrid s z (if x = 0 then lonLast - 1 else x - 1))
    (posGrid s (z + 1) x - posGrid s (z - 1) x))

/-- Per-vertex normal (lines 243-265): pole rows use the radial direction,
interior rows the central difference with a radial fallback when the cross
product degenerates. -/
noncomputable def normalGrid (s : Seeds) (z x : ℕ) : V3 :=
  if z = 0 ∨ z = LAT_POINTS - 1 then V3.normalizeOrZero (posGrid s z x)
  else if (rawNormal s z x).lengthSq > 0 then rawNormal s z x
  else V3.normalizeOrZero (posGrid s z x)

/-- Per-vertex color (line 271). -/
noncomputable def colorGrid (s : Seeds) (z x : ℕ) : ℝ × ℝ × ℝ :=
  colorFromHeight (heightGrid s z x) (V3.normalizeOrZero (posGrid s z x))
    (moistGrid s z x)

/-- The vertex record (src/terrain.rs `Vertex`). -/
structure Vertex where
  pos : V3
  normal : V3
  color : ℝ × ℝ × ℝ
  flatPos : V3

/-- The vertex pushed for grid cell `(z, x)` (lines 268-278). -/
noncomputable def vertexAt (s : Seeds) (z x : ℕ) : Vertex :=
  ⟨posGrid s z x, normalGrid s z x, colorGrid s z x, flatGrid s z x⟩

/-- The row-major vertex list of `generate_mesh`.  (Marked irreducible so
that unification never tries to evaluate the 65792-element list.) -/
@[irreducible] noncomputable def vertexList (s : Seeds) : List Vertex :=
  (List.range (LAT_POINTS * LON_POINTS)).map fun idx =>
    vertexAt s (idx / LON_POINTS) (idx % LON_POINTS)

/-- The triangle index list of `generate_mesh` (lines 280-289): two
triangles per quad, `[i0, i1, i2, i1, i3, i2]`.  It depends only on the
fixed grid resolution. -/
def indexList : List ℕ :=
  (List.range (LAT_POINTS - 1)).flatMap fun z =>
    (List.range (LON_POINTS - 1)).flatMap fun x =>
      [z * LON_POINTS + x, z * LON_POINTS + x + 1, z * LON_POINTS + x + LON_POINTS,
        z * LON_POINTS + x + 1, z * LON_POINTS + x + LON_POINTS + 1,
        z * LON_POINTS + x + LON_POINTS]

/-! ### Random source and mesh generation entry point -/

/-- The caller-supplied random source (`&mut impl Rng`): a stream of words
and a cursor recording how many have been drawn. -/
structure RngState where
  stream : ℕ → ℕ
  cursor : ℕ

/-- `rng.gen::<u32>()`: the next draw, reduced into u32 range, advancing
the cursor by one. -/
def genU32 (r : RngState) : ℕ × RngState :=
  (r.stream r.cursor % U32, ⟨r.stream, r.cursor + 1⟩)

/-- Lines 204-209 of `generate_mesh`: the six per-channel seeds, each drawn
fresh from the random source. -/
def drawSeeds (r : RngState) : Seeds × RngState :=
  let c := genU32 r
  let h := genU32 c.2
  let m := genU32 h.2
  let d := genU32 m.2
  let mo := genU32 d.2
  let w := genU32 mo.2
  (⟨c.1, h.1, m.1, d.1, mo.1, w.1⟩, w.2)

/-- src/terrain.rs `generate_mesh`: draws the six seeds, then builds the
vertex and index lists; the advanced random source is returned explicitly
(Rust mutates it through `&mut`). -/
noncomputable def generateMesh (r : RngState) : (List Vertex × List ℕ) × RngState :=
  ((vertexList (drawSeeds r).1, indexList), (drawSeeds r).2)

/-! ### Terrain component state (src/terrain.rs `Terrain`) -/

/-- The uniform block (src/terrain.rs `Globals`). -/
structure Globals where
  viewProj : Fin 4 → Fin 4 → ℝ
  morph : Fin 4 → ℝ

/-- The GPU-side state owned by `Terrain`: vertex buffer, index buffer,
stored index count and uniform buffer contents. -/
structure TerrainState where
  vertexBuffer : List Vertex
  indexBuffer : List ℕ
  indexCount : ℕ
  uniform : Globals

/-- src/terrain.rs `Terrain::randomize` (lines 189-192): regenerate the
mesh from fresh draws and rewrite the vertex buffer contents; nothing else
is touched. -/
noncomputable def terrainRandomize (t : TerrainState) (r : RngState) :
    TerrainState × RngState :=
  ({ t with vertexBuffer := (generateMesh r).1.1 }, (generateMesh r).2)

/-! ### Bounds for the height synthesis -/

theorem abs_mul_le_of_unit {a b c : ℝ} (ha : |a| ≤ c) (hb0 : 0 ≤ b) (hb1 : b ≤ 1) :
    |a * b| ≤ c := by
  rw [abs_mul, abs_of_nonneg hb0]
  nlinarith [abs_nonneg a]

theorem continentOf_abs_le (dir : V3) (s : Seeds) : |continentOf dir s| ≤ 1 := by
  obtain ⟨h1a, h1b⟩ := fbm_mem (CONTINENT_FREQ • warpedOf dir s) s.continent 5 2.05 0.5
    (by norm_num) (by norm_num)
  obtain ⟨h2a, h2b⟩ := fbm_mem ((CONTINENT_FREQ * 0.5) • warpedOf dir s)
    (xorU32 s.continent 0x9e37) 3 2.2 0.5 (by norm_num) (by norm_num)
  rw [continentOf, abs_le]
  constructor <;> nlinarith

theorem baseOf_mem (dir : V3) (s : Seeds) :
    -1.3 ≤ baseOf dir s ∧ baseOf dir s ≤ 0.7 := by
  have h := abs_le.mp (continentOf_abs_le dir s)
  rw [baseOf, SEA_THRESHOLD]
  constructor <;> [linarith [h.1]; linarith [h.2]]

/-- The squared ridged noise lies in `[0, 1]`. -/
theorem ridges_sq_mem (dir : V3) (s : Seeds) :
    0 ≤ ridgesOf dir s ^ (2 : ℝ) ∧ ridgesOf dir s ^ (2 : ℝ) ≤ 1 := by
  obtain ⟨h0, h1⟩ := ridgedFbm_mem (MOUNTAIN_FREQ • warpedOf dir s) s.mountain 4 2 0.5
  constructor
  · exact Real.rpow_nonneg h0 2
  · exact Real.rpow_le_one h0 h1 (by norm_num)

/-- The powered ocean depth is bounded by `1.3 ^ 2 = 1.69`. -/
theorem depth_pow_mem (dir : V3) (s : Seeds) :
    0 ≤ oceanDepthOf dir s ^ (1.35 : ℝ) ∧
      oceanDepthOf dir s ^ (1.35 : ℝ) ≤ 1.69 := by
  have hd0 : 0 ≤ oceanDepthOf dir s := le_max_right _ _
  have hd1 : oceanDepthOf dir s ≤ 1.3 := by
    have hb := (baseOf_mem dir s).1
    rw [oceanDepthOf]
    exact max_le (by linarith) (by norm_num)
  refine ⟨Real.rpow_nonneg hd0 1.35, ?_⟩
  calc oceanDepthOf dir s ^ (1.35 : ℝ)
      ≤ (1.3 : ℝ) ^ (1.35 : ℝ) := Real.rpow_le_rpow hd0 hd1 (by norm_num)
    _ ≤ (1.3 : ℝ) ^ (2 : ℝ) :=
        Real.rpow_le_rpow_of_exponent_le (by norm_num) (by norm_num)
    _ ≤ 1.69 := by
        rw [show (2 : ℝ) = ((2 : ℕ) : ℝ) by norm_num, Real.rpow_natCast]
        norm_num

theorem landHeightOf_abs_le (dir : V3) (s : Seeds) (hbase : 0 < baseOf dir s) :
    |landHeightOf dir s| ≤ 18.45 := by
  have hb := (baseOf_mem dir s).2
  obtain ⟨hh0, hh1⟩ := remap01_mem (fbm (HILL_FREQ • warpedOf dir s) s.hill 4 2.1 0.5)
  obtain ⟨hr0, hr1⟩ := ridges_sq_mem dir s
  obtain ⟨hl0, hl1⟩ := smoothstep_mem 0 0.2 (baseOf dir s)
  obtain ⟨hi0, hi1⟩ := smoothstep_mem 0.08 0.45 (baseOf dir s)
  obtain ⟨hd0, hd1⟩ := fbm_mem (DETAIL_FREQ • warpedOf dir s) s.detail 3 2.4 0.55
    (by norm_num) (by norm_num)
  have t0 : |baseOf dir s * HEIGHT_AMPLITUDE| ≤ 7 := by
    rw [HEIGHT_AMPLITUDE, abs_of_pos (by nlinarith)]
    nlinarith
  have t1 : |(hillsOf dir s - 0.5) * HEIGHT_AMPLITUDE * 0.35 * landMaskOf dir s| ≤ 1.75 := by
    refine abs_mul_le_of_unit ?_ hl0 hl1
    rw [HEIGHT_AMPLITUDE, abs_le]
    rw [hillsOf] at *
    constructor <;> nlinarith
  have t2 : |ridgesOf dir s ^ (2 : ℝ) * HEIGHT_AMPLITUDE * 0.9 * inlandOf dir s| ≤ 9 := by
    refine abs_mul_le_of_unit ?_ hi0 hi1
    rw [HEIGHT_AMPLITUDE, abs_le]
    constructor <;> linarith
  have t3 : |detailOf dir s * HEIGHT_AMPLITUDE * 0.07| ≤ 0.7 := by
    rw [HEIGHT_AMPLITUDE, abs_le]
    rw [detailOf] at *
    constructor <;> nlinarith
  rw [landHeightOf]
  calc |baseOf dir s * HEIGHT_AMPLITUDE
        + (hillsOf dir s - 0.5) * HEIGHT_AMPLITUDE * 0.35 * landMaskOf dir s
        + ridgesOf dir s ^ (2 : ℝ) * HEIGHT_AMPLITUDE * 0.9 * inlandOf dir s
        + detailOf dir s * HEIGHT_AMPLITUDE * 0.07|
      ≤ |baseOf dir s * HEIGHT_AMPLITUDE
        + (hillsOf dir s - 0.5) * HEIGHT_AMPLITUDE * 0.35 * landMaskOf dir s
        + ridgesOf dir s ^ (2 : ℝ) * HEIGHT_AMPLITUDE * 0.9 * inlandOf dir s|
        + |detailOf dir s * HEIGHT_AMPLITUDE * 0.07| := abs_add _ _
    _ ≤ |baseOf dir s * HEIGHT_AMPLITUDE
        + (hillsOf dir s - 0.5) * HEIGHT_AMPLITUDE * 0.35 * landMaskOf dir s|
        + |ridgesOf dir s ^ (2 : ℝ) * HEIGHT_AMPLITUDE * 0.9 * inlandOf dir s|
        + |detailOf dir s * HEIGHT_AMPLITUDE * 0.07| := by
          linarith [abs_add (baseOf dir s * HEIGHT_AMPLITUDE
            + (hillsOf dir s - 0.5) * HEIGHT_AMPLITUDE * 0.35 * landMaskOf dir s)
            (ridgesOf dir s ^ (2 : ℝ) * HEIGHT_AMPLITUDE * 0.9 * inlandOf dir s)]
    _ ≤ |baseOf dir s * HEIGHT_AMPLITUDE|
        + |(hillsOf dir s - 0.5) * HEIGHT_AMPLITUDE * 0.35 * landMaskOf dir s|
        + |ridgesOf dir s ^ (2 : ℝ) * HEIGHT_AMPLITUDE * 0.9 * inlandOf dir s|
        + |detailOf dir s * HEIGHT_AMPLITUDE * 0.07| := by
          linarith [abs_add (baseOf dir s * HEIGHT_AMPLITUDE)
            ((hillsOf dir s - 0.5) * HEIGHT_AMPLITUDE * 0.35 * landMaskOf dir s)]
    _ ≤ 18.45 := by linarith

theorem oceanHeightOf_mem (dir : V3) (s : Seeds) :
    -14.765 ≤ oceanHeightOf dir s ∧ oceanHeightOf dir s ≤ -0.15 := by
  obtain ⟨hp0, hp1⟩ := depth_pow_mem dir s
  obtain ⟨hs0, hs1⟩ := smoothstep_mem 0.03 0.2 (oceanDepthOf dir s)
  obtain ⟨hd0, hd1⟩ := fbm_mem (DETAIL_FREQ • warpedOf dir s) s.detail 3 2.4 0.55
    (by norm_num) (by norm_num)
  constructor
  · rw [oceanHeightOf]
    refine le_min ?_ (by norm_num)
    rw [HEIGHT_AMPLITUDE]
    rw [shelfOf, detailOf] at *
    nlinarith
  · exact min_le_right _ _

/-- Headroom bound for the synthesized elevation: both branches stay within
twice the amplitude. -/
theorem heightForDir_abs_le (dir : V3) (s : Seeds) :
    |(heightForDir dir s).1| ≤ HEIGHT_AMPLITUDE * 2 := by
  simp only [heightForDir]
  by_cases h : baseOf dir s * HEIGHT_AMPLITUDE > 0
  · rw [if_pos h]
    have hbase : 0 < baseOf dir s := by
      rw [HEIGHT_AMPLITUDE] at h
      nlinarith
    have hland := landHeightOf_abs_le dir s hbase
    rw [HEIGHT_AMPLITUDE]
    linarith
  · rw [if_neg h]
    obtain ⟨ho0, ho1⟩ := oceanHeightOf_mem dir s
    rw [HEIGHT_AMPLITUDE, abs_le]
    constructor <;> linarith

/-- C2: there is a fixed constant `K` (here `K = 2`) such that for every
input direction and every choice of the six seed values, the elevation
returned by `height_for_dir` satisfies `|elevation| ≤ HEIGHT_AMPLITUDE * K`. -/
theorem C2_elevation_bounded :
    ∃ K : ℝ, 0 < K ∧ ∀ (dir : V3) (s : Seeds),
      |(heightForDir dir s).1| ≤ HEIGHT_AMPLITUDE * K :=
  ⟨2, by norm_num, fun dir s => heightForDir_abs_le dir s⟩

/-- C5: whenever the ocean branch is taken (`base * HEIGHT_AMPLITUDE ≤ 0`,
i.e. the land test fails), the returned elevation is clamped to at most the
fixed negative floor `-0.15`, hence strictly below zero.  Stated as a
disjunction over all inputs: either the land branch applies, or the
elevation obeys the ocean floor. -/
theorem C5_ocean_floor (dir : V3) (s : Seeds) :
    0 < baseOf dir s * HEIGHT_AMPLITUDE ∨
      ((heightForDir dir s).1 ≤ -0.15 ∧ (heightForDir dir s).1 < 0) := by
  by_cases h : baseOf dir s * HEIGHT_AMPLITUDE > 0
  · exact Or.inl h
  · refine Or.inr ?_
    have hle : (heightForDir dir s).1 ≤ -0.15 := by
      rw [heightForDir]
      simp only [h, if_false]
      exact min_le_right _ _
    exact ⟨hle, by linarith⟩

/-- C6: for every sample point, seed, octave count `≥ 1` and positive gain,
`fbm` returns a value in `[-1, 1]`: `hash3` maps every lattice point into
`[-1, 1]`, trilinear interpolation with weights in `[0, 1]` stays within
that range, and the octave sum is divided by the sum of the octave
amplitudes. -/
theorem C6_fbm_in_unit_interval (pos : V3) (seed octaves : ℕ) (lac gain : ℝ)
    (hoct : 1 ≤ octaves) (hg : 0 < gain) :
    -1 ≤ fbm pos seed octaves lac gain ∧ fbm pos seed octaves lac gain ≤ 1 :=
  fbm_mem pos seed octaves lac gain hoct hg

/-- Witness for C6 at the concrete input `p = 0`, `seed = 0`, one octave,
lacunarity `2`, gain `1/2`. -/
theorem C6_fbm_in_unit_interval_witness :
    -1 ≤ fbm ⟨0, 0, 0⟩ 0 1 2 (1 / 2) ∧ fbm ⟨0, 0, 0⟩ 0 1 2 (1 / 2) ≤ 1 :=
  C6_fbm_in_unit_interval ⟨0, 0, 0⟩ 0 1 2 (1 / 2) (by norm_num) (by norm_num)

/-! ### Seam and pole lemmas for the mesh grid -/

theorem uOf_zero : uOf 0 = 0 := by simp [uOf]

theorem uOf_last : uOf lonLast = 1 := by
  norm_num [uOf, lonLast, LON_POINTS, GRID]

theorem lonOf_zero : lonOf 0 = 0 := by simp [lonOf, uOf]

theorem lonOf_last : lonOf lonLast = 2 * Real.pi := by
  rw [lonOf, uOf_last, one_mul]

/-- Longitude `0` and the duplicated seam column give the same direction:
`cos`/`sin` agree at `0` and `2 * PI`. -/
theorem dirGrid_seam (z : ℕ) : dirGrid z lonLast = dirGrid z 0 := by
  simp [dirGrid, lonOf_last, lonOf_zero, Real.cos_two_pi, Real.sin_two_pi]

theorem heightGrid_seam (s : Seeds) (z : ℕ) :
    heightGrid s z lonLast = heightGrid s z 0 := by
  rw [heightGrid, heightGrid, dirGrid_seam]

theorem moistGrid_seam (s : Seeds) (z : ℕ) :
    moistGrid s z lonLast = moistGrid s z 0 := by
  rw [moistGrid, moistGrid, dirGrid_seam]

theorem posGrid_seam (s : Seeds) (z : ℕ) :
    posGrid s z lonLast = posGrid s z 0 := by
  rw [posGrid, posGrid, dirGrid_seam, heightGrid_seam]

theorem colorGrid_seam (s : Seeds) (z : ℕ) :
    colorGrid s z lonLast = colorGrid s z 0 := by
  rw [colorGrid, colorGrid, heightGrid_seam, posGrid_seam, moistGrid_seam]

/-- The interior central-difference normal agrees across the seam: column
`0` and column `lonLast` resolve to the same pair of longitude neighbors,
and the latitude neighbors agree by position seam continuity. -/
theorem rawNormal_seam (s : Seeds) (z : ℕ) :
    rawNormal s z lonLast = rawNormal s z 0 := by
  have h0l : ¬((0 : ℕ) = lonLast) := by decide
  rw [rawNormal, rawNormal, if_pos rfl, if_pos rfl, if_neg h0l, ite_self]
  norm_num [posGrid_seam]

theorem normalGrid_seam (s : Seeds) (z : ℕ) :
    normalGrid s z lonLast = normalGrid s z 0 := by
  rw [normalGrid, normalGrid, rawNormal_seam, posGrid_seam]

/-- Fixed all-zero seed record, the seeds obtained by `generate_mesh` from
an all-zero random stream. -/
def seeds0 : Seeds := ⟨0, 0, 0, 0, 0, 0⟩

/-- C1 counterexample: at latitude row `1` the vertex at longitude column
`0` and the vertex at the duplicated seam column do NOT have equal flat
position: the flat `u` coordinate is `0` on one side and `1` on the
other. -/
theorem C1_flat_position_differs :
    (vertexAt seeds0 1 0).flatPos ≠ (vertexAt seeds0 1 lonLast).flatPos := by
  intro h
  have hx := congrArg V3.x h
  simp only [vertexAt, flatGrid] at hx
  rw [uOf_zero, uOf_last] at hx
  norm_num at hx

/-- C1 (amended): for every latitude row of the mesh built by
`generate_mesh`, the vertex at longitude column `0` and the vertex at the
final (duplicated) column `LON_POINTS - 1` have equal position, equal
normal and equal color; their flat positions agree in the `v` and
elevation components, while the flat `u` component intentionally differs
(`0` versus `1`). -/
theorem C1_seam_continuity (s : Seeds) (z : ℕ) :
    (vertexAt s z 0).pos = (vertexAt s z lonLast).pos ∧
    (vertexAt s z 0).normal = (vertexAt s z lonLast).normal ∧
    (vertexAt s z 0).color = (vertexAt s z lonLast).color ∧
    (vertexAt s z 0).flatPos.y = (vertexAt s z lonLast).flatPos.y ∧
    (vertexAt s z 0).flatPos.z = (vertexAt s z lonLast).flatPos.z :=
  ⟨(posGrid_seam s z).symm, (normalGrid_seam s z).symm,
    (colorGrid_seam s z).symm, rfl, (heightGrid_seam s z).symm⟩

/-- C8: every vertex of the first latitude row and of the last latitude
row stores as its normal its own position normalized (the radial
direction). -/
theorem C8_pole_normals (s : Seeds) (x : ℕ) :
    normalGrid s 0 x = V3.normalizeOrZero (posGrid s 0 x) ∧
    normalGrid s (LAT_POINTS - 1) x =
      V3.normalizeOrZero (posGrid s (LAT_POINTS - 1) x) :=
  ⟨by rw [normalGrid, if_pos (Or.inl rfl)], by rw [normalGrid, if_pos (Or.inr rfl)]⟩

/-! ### Random-draw accounting (claims C3, C9) -/

/-- The identity stream random source, cursor at zero. -/
def rngNat : RngState := ⟨fun n => n, 0⟩

/-- C3 counterexample: one `generate_mesh` call advances the caller's
random source by six 32-bit draws, not by one. -/
theorem C3_six_draws_not_one :
    (generateMesh rngNat).2.cursor = 6 ∧
    (generateMesh rngNat).2.cursor ≠ rngNat.cursor + 1 := by
  constructor
  · rfl
  · intro h
    simp [generateMesh, drawSeeds, genU32, rngNat] at h

/-- C3 (amended): each generation event draws exactly six 32-bit unsigned
integers from the caller-supplied random source — one per channel, in the
order continent, hill, mountain, detail, moisture, warp — and uses those
six draws directly as the per-channel sub-seeds; XOR with fixed constants
only derives secondary seeds within a channel. -/
theorem C3_amended_six_seed_draws (r : RngState) :
    (drawSeeds r).1 = ⟨r.stream r.cursor % U32, r.stream (r.cursor + 1) % U32,
      r.stream (r.cursor + 2) % U32, r.stream (r.cursor + 3) % U32,
      r.stream (r.cursor + 4) % U32, r.stream (r.cursor + 5) % U32⟩ ∧
    (generateMesh r).2.cursor = r.cursor + 6 ∧
    (generateMesh r).1 = (vertexList (drawSeeds r).1, indexList) := by
  refine ⟨?_, ?_, rfl⟩
  · simp [drawSeeds, genU32]
  · simp [generateMesh, drawSeeds, genU32]

/-- C9: `randomize` regenerates and rewrites only the vertex buffer
contents; the index buffer, the stored index count and the uniform buffer
are unchanged, and the mesh topology — the triangle index sequence and the
vertex count — is the same for every drawn seed set. -/
theorem generateMesh_vertices (r : RngState) :
    (generateMesh r).1.1 = vertexList (drawSeeds r).1 := rfl

theorem generateMesh_indices (r : RngState) :
    (generateMesh r).1.2 = indexList := rfl

theorem terrainRandomize_fst (t : TerrainState) (r : RngState) :
    (terrainRandomize t r).1 = { t with vertexBuffer := (generateMesh r).1.1 } := rfl

theorem C9_randomize_rewrites_only_vertices (t : TerrainState) (r rr : RngState) :
    (terrainRandomize t r).1.indexBuffer = t.indexBuffer ∧
    (terrainRandomize t r).1.indexCount = t.indexCount ∧
    (terrainRandomize t r).1.uniform = t.uniform ∧
    (terrainRandomize t r).1.vertexBuffer = (generateMesh r).1.1 ∧
    (generateMesh r).1.2 = (generateMesh rr).1.2 ∧
    (generateMesh r).1.1.length = (generateMesh rr).1.1.length := by
  obtain ⟨vb, ib, ic, u⟩ := t
  refine ⟨?_, ?_, ?_, ?_, ?_, ?_⟩
  · rw [terrainRandomize_fst]
  · rw [terrainRandomize_fst]
  · rw [terrainRandomize_fst]
  · rw [terrainRandomize_fst]
  · rw [generateMesh_indices, generateMesh_indices]
  · rw [generateMesh_vertices, generateMesh_vertices, vertexList, vertexList,
      List.length_map, List.length_map]


/-! ### Input state (src/input.rs) -/

/-- src/input.rs `InputState`: orbit camera state plus consume-once trigger
flags. -/
structure InputState where
  position : V3
  yaw : ℝ
  pitch : ℝ
  orbitRadius : ℝ
  orbitSpeed : ℝ
  shift : Bool
  active : Bool
  w : Bool
  a : Bool
  s : Bool
  d : Bool
  randomize : Bool
  toggleMap : Bool
  lastCursor : Option (ℝ × ℝ)
  sensitivity : ℝ
  releaseCursor : Bool

/-- src/input.rs `InputState::take_randomize` (lines 184-188): return the
flag and reset it; nothing else changes. -/
def takeRandomize (i : InputState) : Bool × InputState :=
  (i.randomize, { i with randomize := false })

/-- src/input.rs `InputState::take_toggle_map` (lines 190-194). -/
def takeToggleMap (i : InputState) : Bool × InputState :=
  (i.toggleMap, { i with toggleMap := false })

/-- C10: the trigger flags are consume-once latches: `take_randomize`
returns the current randomize flag and resets it (and only it) to false,
`take_toggle_map` does the same for the toggle flag, and a second
immediately following call returns false.  The structure-update equalities
say precisely that no other field of `InputState` is modified. -/
theorem C10_consume_once_latches (i : InputState) :
    (takeRandomize i).1 = i.randomize ∧
    (takeRandomize i).2 = { i with randomize := false } ∧
    (takeRandomize (takeRandomize i).2).1 = false ∧
    (takeToggleMap i).1 = i.toggleMap ∧
    (takeToggleMap i).2 = { i with toggleMap := false } ∧
    (takeToggleMap (takeToggleMap i).2).1 = false :=
  ⟨rfl, rfl, rfl, rfl, rfl, rfl⟩

/-! ### Settings validation (src/main.rs `Gui::draw`, lines 422-425) -/

/-- Modelled from the spec: the `TerrainSettings` record (its `struct`
definition is referenced from src/main.rs as `terrain::TerrainSettings` but
is not among the repository's source files).  Spec section 3: four
floating-point fields `beachMaxHeight`, `desertMoistureMax`,
`semiAridMoistureMax`, `landElevationBias`; the field names also appear at
the use sites in src/main.rs lines 400-421. -/
structure TerrainSettings where
  beachMaxHeight : ℝ
  desertMoistureMax : ℝ
  semiAridMoistureMax : ℝ
  landElevationBias : ℝ

/-- The cross-field correction step at the end of the settings UI
(src/main.rs lines 422-425): when `semi_arid_moisture_max <
desert_moisture_max`, raise the former to the latter and report a change;
the step never rejects its input. -/
noncomputable def validateSettings (s : TerrainSettings) (changed : Bool) :
    TerrainSettings × Bool :=
  if s.semiAridMoistureMax < s.desertMoistureMax then
    ({ s with semiAridMoistureMax := s.desertMoistureMax }, true)
  else (s, changed)

/-- C4: the settings-validation step is total (it never rejects any input,
adversarial ones such as `desert = 1`, `semiArid = 0` included); afterwards
`semiAridMoistureMax >= desertMoistureMax` holds; and the reported change
flag is the old flag OR-ed with whether the ordering correction fired, so
whenever `semiAridMoistureMax` was raised the step reports
`settings_changed = true`. -/
theorem C4_settings_validation (s : TerrainSettings) (changed : Bool) :
    (validateSettings s changed).1.desertMoistureMax ≤
      (validateSettings s changed).1.semiAridMoistureMax ∧
    (validateSettings s changed).2 =
      (changed || decide (s.semiAridMoistureMax < s.desertMoistureMax)) := by
  rw [validateSettings]
  by_cases h : s.semiAridMoistureMax < s.desertMoistureMax
  · rw [if_pos h]
    exact ⟨le_refl _, by simp [h]⟩
  · rw [if_neg h]
    exact ⟨le_of_not_lt h, by simp [h]⟩

/-! ### Map toggle (src/main.rs `State::toggle_map`, lines 202-211) -/

/-- `f32::atan2`: `y.atan2(x)` is the angle of the point `(x, y)`, embedded
as the complex argument. -/
noncomputable def atan2 (y x : ℝ) : ℝ := Complex.arg ⟨x, y⟩

/-- The slice of `State` that `toggle_map` and the per-frame toggle
consumption read and write. -/
structure AppState where
  input : InputState
  mapBlend : ℝ
  mapTarget : ℝ
  mapRotation : ℝ

/-- src/main.rs `State::toggle_map`: when the current target is the globe
(`map_target < 0.5`), set the rotation offset from the normalized camera
position and head to the flat map; otherwise head back to the globe,
leaving the rotation offset untouched. -/
noncomputable def toggleMap (st : AppState) : AppState :=
  if st.mapTarget < 0.5 then
    { st with
      mapRotation := Real.pi - atan2 (V3.normalizeOrZero st.input.position).z
        (V3.normalizeOrZero st.input.position).x,
      mapTarget := 1 }
  else { st with mapTarget := 0 }

/-- src/main.rs `State::update` lines 219-221: the toggle flag is consumed
once per frame and `toggle_map` runs only when it was set. -/
noncomputable def applyToggleInput (st : AppState) : AppState :=
  if (takeToggleMap st.input).1 = true then
    toggleMap { st with input := (takeToggleMap st.input).2 }
  else { st with input := (takeToggleMap st.input).2 }

theorem toggleMap_input (st : AppState) : (toggleMap st).input = st.input := by
  rw [toggleMap]
  split <;> rfl

/-- After a frame that consumed the toggle flag, the flag is down. -/
theorem applyToggleInput_flag (st : AppState) :
    (applyToggleInput st).input.toggleMap = false := by
  rw [applyToggleInput]
  split
  · rw [toggleMap_input]
    rfl
  · rfl

/-- The spec's words for the toggle direction: "the current view direction
(the unit vector from the camera toward the scene)" — the camera at
`input.position` looks at the origin (`Mat4::look_at_rh(eye, Vec3::ZERO,
up)`), so this is the normalized `ZERO - position`. -/
noncomputable def specViewDir (st : AppState) : V3 :=
  V3.normalizeOrZero ((⟨0, 0, 0⟩ : V3) - st.input.position)

/-- Concrete state for the counterexample: camera east of the globe at
`(2, 0, 0)`, currently targeting the globe. -/
noncomputable def stateEast : AppState :=
  { input := ⟨⟨2, 0, 0⟩, 0, 0, 0, 0, false, false, false, false, false, false,
      false, false, none, 0, false⟩,
    mapBlend := 0, mapTarget := 0, mapRotation := 0 }

theorem normalizeEast : V3.normalizeOrZero ⟨(2 : ℝ), 0, 0⟩ = ⟨1, 0, 0⟩ := by
  have hl : V3.length ⟨(2 : ℝ), 0, 0⟩ = 2 := by
    rw [V3.length, V3.lengthSq]
    norm_num
    rw [show (4 : ℝ) = 2 ^ 2 by norm_num]
    exact Real.sqrt_sq (by norm_num)
  rw [V3.normalizeOrZero, hl, if_neg (by norm_num), V3.smul_def]
  norm_num

theorem normalizeWest : V3.normalizeOrZero ⟨(-2 : ℝ), 0, 0⟩ = ⟨-1, 0, 0⟩ := by
  have hl : V3.length ⟨(-2 : ℝ), 0, 0⟩ = 2 := by
    rw [V3.length, V3.lengthSq]
    norm_num
    rw [show (4 : ℝ) = 2 ^ 2 by norm_num]
    exact Real.sqrt_sq (by norm_num)
  rw [V3.normalizeOrZero, hl, if_neg (by norm_num), V3.smul_def]
  norm_num

theorem atan2_zero_one : atan2 0 1 = 0 := by
  rw [atan2]
  rw [show (⟨1, 0⟩ : ℂ) = (1 : ℂ) from Complex.ext (by simp) (by simp)]
  exact Complex.arg_one

theorem atan2_zero_neg_one : atan2 0 (-1) = Real.pi := by
  rw [atan2]
  rw [show (⟨-1, 0⟩ : ℂ) = (-1 : ℂ) from Complex.ext (by simp) (by simp)]
  exact Complex.arg_neg_one

/-- C7 counterexample: with the camera at `(2, 0, 0)` and the globe as the
current target, `toggle_map` stores `PI` as the rotation offset, while
`pi - atan2(d.z, d.x)` for `d` the unit vector from the camera toward the
scene is `0` — the code derives the offset from the camera position
direction, which is the opposite of the claim's view direction. -/
theorem C7_rotation_differs_from_view_direction :
    stateEast.mapTarget < 0.5 ∧
    (toggleMap stateEast).mapRotation ≠
      Real.pi - atan2 (specViewDir stateEast).z (specViewDir stateEast).x := by
  constructor
  · show (0 : ℝ) < 0.5
    norm_num
  · have hrot : (toggleMap stateEast).mapRotation = Real.pi := by
      rw [toggleMap, if_pos (by show (0 : ℝ) < 0.5; norm_num)]
      show Real.pi - atan2 (V3.normalizeOrZero ⟨(2 : ℝ), 0, 0⟩).z
        (V3.normalizeOrZero ⟨(2 : ℝ), 0, 0⟩).x = Real.pi
      rw [normalizeEast]
      show Real.pi - atan2 0 1 = Real.pi
      rw [atan2_zero_one, sub_zero]
    have hview : specViewDir stateEast = ⟨-1, 0, 0⟩ := by
      rw [specViewDir]
      show V3.normalizeOrZero ((⟨0, 0, 0⟩ : V3) - ⟨2, 0, 0⟩) = _
      rw [show ((⟨0, 0, 0⟩ : V3) - ⟨2, 0, 0⟩) = ⟨(-2 : ℝ), 0, 0⟩ by
        show (⟨0 - 2, 0 - 0, 0 - 0⟩ : V3) = _
        norm_num]
      exact normalizeWest
    rw [hrot, hview]
    show Real.pi ≠ Real.pi - atan2 0 (-1)
    rw [atan2_zero_neg_one, sub_self]
    exact Real.pi_ne_zero

/-- C7 (amended): when the map toggle fires while the current target is
the globe (`map_target < 0.5`), the rotation offset is set, once per
toggle and not per frame, to `pi - atan2(d.z, d.x)` where `d` is the
normalized camera position (the unit vector from the scene center toward
the camera); toggling back to the globe leaves the rotation offset
unchanged.  The last two conjuncts express once-per-toggle: after a frame
consumed the flag, a further frame with no new key press changes neither
the rotation offset nor the target. -/
theorem C7_amended_toggle_rotation (st : AppState) :
    (toggleMap st).mapRotation = (if st.mapTarget < 0.5 then
      Real.pi - atan2 (V3.normalizeOrZero st.input.position).z
        (V3.normalizeOrZero st.input.position).x
      else st.mapRotation) ∧
    (toggleMap st).mapTarget = (if st.mapTarget < 0.5 then 1 else 0) ∧
    (applyToggleInput (applyToggleInput st)).mapRotation =
      (applyToggleInput st).mapRotation ∧
    (applyToggleInput (applyToggleInput st)).mapTarget =
      (applyToggleInput st).mapTarget := by
  have hflag := applyToggleInput_flag st
  refine ⟨?_, ?_, ?_, ?_⟩
  · rw [toggleMap]
    by_cases h : st.mapTarget < 0.5
    · rw [if_pos h, if_pos h]
    · rw [if_neg h, if_neg h]
  · rw [toggleMap]
    by_cases h : st.mapTarget < 0.5
    · rw [if_pos h, if_pos h]
    · rw [if_neg h, if_neg h]
  · generalize hs1 : applyToggleInput st = s1 at hflag
    rw [applyToggleInput, if_neg (by simp [takeToggleMap, hflag])]
  · generalize hs1 : applyToggleInput st = s1 at hflag
    rw [applyToggleInput, if_neg (by simp [takeToggleMap, hflag])]


end TerrainModel
